import Mathlib

/-!
Shallow embedding of the provider-schema path-resolution engine found in
src/packages/cdktf-cli/bin/cmds/handlers.ts (the resolution half of the
file: getResourceAtPath, getBlockTypeAtPath, getAttributeTypeAtPath,
resolveAttribute, getTypeAtPath, getDesiredType).

JavaScript semantics are modelled explicitly: fallible evaluation lives in
Except JsError, the JavaScript values null and undefined are kept apart,
and property accesses that would raise a TypeError are modelled by throw.
-/

set_option autoImplicit false

namespace CdktfSchema

/-- A JavaScript runtime fault: the code under verification can raise a
TypeError by dereferencing an undefined value. -/
inductive JsError where
  | typeError (msg : String)
deriving DecidableEq

/-- Modelled from the spec: AttributeType of the provider-generator
package (declared outside src). Section 3 describes it as an untagged
union: a primitive type tag (a string), a complex descriptor (an array),
or an object member mapping. The num and undefined constructors stand for
JavaScript numbers and the undefined value, which indexing inside the
resolver can produce at run time; a stored well-formed schema never
contains them. -/
inductive AttributeType where
  | prim (s : String)
  | num (n : Int)
  | arr (items : List AttributeType)
  | obj (members : List (String × AttributeType))
  | undefined

/-- Modelled from the spec: an Attribute carries a declared type plus
descriptive flags that the resolver only propagates. -/
structure Attribute where
  type : AttributeType
  required : Option Bool := none
  computed : Option Bool := none

mutual
/-- Modelled from the spec: a Block has an attributes mapping and a
block_types mapping (JavaScript objects, modelled as association lists). -/
inductive Block where
  | mk : List (String × Attribute) → List (String × BlockType) → Block

/-- Modelled from the spec: a nested block type wraps a Block and may
carry a max_items cardinality hint. -/
inductive BlockType where
  | mk : Block → Option Nat → BlockType
end

/-- The attributes mapping of a block. -/
def Block.attributes : Block → List (String × Attribute)
  | .mk a _ => a

/-- The nested block mapping of a block. -/
def Block.block_types : Block → List (String × BlockType)
  | .mk _ b => b

/-- The block wrapped by a nested block type. -/
def BlockType.block : BlockType → Block
  | .mk b _ => b

/-- The cardinality hint of a nested block type. -/
def BlockType.max_items : BlockType → Option Nat
  | .mk _ m => m

/-- Modelled from the spec: a resource schema is a block together with a
version number. -/
structure Schema where
  version : Int
  block : Block

/-- Modelled from the spec: one provider entry must expose resource and
data-source schema mappings and optionally its own provider block. -/
structure ProviderSchemaEntry where
  provider : Option Schema
  resource_schemas : List (String × Schema)
  data_source_schemas : List (String × Schema)

/-- Modelled from the spec: the multi-provider schema document. -/
structure ProviderSchema where
  provider_schemas : Option (List (String × ProviderSchemaEntry))

/-- Modelled from the spec: the Scope context object exposes the active
provider schema to the resolver. -/
structure Scope where
  providerSchema : ProviderSchema

/-- Modelled from the spec: interface of the external provider-name
resolver getFullProviderName, which maps a provider short name to the
schema key of that provider, absent when the name is unknown. -/
abbrev GetFullProviderName := ProviderSchema → String → Option String

/-- Key lookup in a JavaScript object modelled as an association list. -/
def lookupKey {α : Type} (m : List (String × α)) (k : String) : Option α :=
  (m.find? (fun p => p.1 == k)).map (fun p => p.2)

/-- Helper for jsSplitDot: accumulate characters, cut at every dot. -/
def jsSplitDotAux : List Char → List Char → List String
  | [], acc => [String.mk acc.reverse]
  | c :: rest, acc =>
    if c = '.' then String.mk acc.reverse :: jsSplitDotAux rest []
    else jsSplitDotAux rest (c :: acc)

/-- Models the JavaScript split of a path on the dot separator. -/
def jsSplitDot (s : String) : List String := jsSplitDotAux s.data []

/-- Models the JavaScript endsWith test on strings. -/
def jsEndsWith (s suffix : String) : Bool :=
  let sd := s.data
  let pd := suffix.data
  decide (pd.length ≤ sd.length) && sd.drop (sd.length - pd.length) == pd

/-- Helper for jsStripFirstBrackets: drop the first bracket pair. -/
def jsStripBracketsAux : List Char → List Char
  | '[' :: ']' :: rest => rest
  | c :: rest => c :: jsStripBracketsAux rest
  | [] => []

/-- Models the JavaScript replace of the first occurrence of the bracket
marker by the empty string (replace with a string pattern rewrites only
the first occurrence). -/
def jsStripFirstBrackets (s : String) : String :=
  String.mk (jsStripBracketsAux s.data)

/-- A canonical array index: a JavaScript bracket access with a string
key hits an array element only when the key is the canonical decimal
form of the index. -/
def canonicalIndex (s : String) : Option Nat :=
  match s.toNat? with
  | some n => if toString n = s then some n else none
  | none => none

/-- Models the JavaScript bracket access base[i] with a numeric index at
call sites that have already established base to be an array; out of
range indexing gives undefined. -/
def jsIndexVal : AttributeType → Nat → AttributeType
  | .arr items, i => (items.get? i).getD .undefined
  | _, _ => .undefined

/-- Models the JavaScript member access base[key]: raises on undefined,
looks keys up in objects, and mimics string and array indexing for the
remaining value shapes. -/
def jsGetMember : AttributeType → String → Except JsError AttributeType
  | .undefined, _ => .error (.typeError "Cannot read properties of undefined")
  | .obj members, key => .ok ((lookupKey members key).getD .undefined)
  | .prim s, key =>
    if key = "length" then .ok (.num (Int.ofNat s.length))
    else
      match canonicalIndex key with
      | some i => .ok (((s.data.get? i).map (fun c => .prim (String.mk [c]))).getD .undefined)
      | none => .ok .undefined
  | .arr items, key =>
    if key = "length" then .ok (.num (Int.ofNat items.length))
    else
      match canonicalIndex key with
      | some i => .ok ((items.get? i).getD .undefined)
      | none => .ok .undefined
  | .num _, _ => .ok .undefined

/-- Outcome of getResourceAtPath: the located resource entry (absent when
the path named the provider block of a provider entry that has none) and
the remaining path segments. -/
structure ResourceAtPath where
  resource : Option Schema
  parts : List String

/-- Faithful embedding of getResourceAtPath from handlers.ts. The path is
split on dots; fewer than two segments fail; a leading data segment is
shifted away; the next two shifts are the provider short name and the
resource local name; the full resource key joins them with an underscore.
A local name ending in Provider targets the provider block. Shifting past
the end of the segment list yields undefined, and calling endsWith on it
raises a TypeError, exactly as in JavaScript. -/
def getResourceAtPath (gfpn : GetFullProviderName) (schema : ProviderSchema)
    (path : String) : Except JsError (Option ResourceAtPath) :=
  let parts := jsSplitDot path
  if parts.length < 2 then
    -- Too short to be a valid path
    .ok none
  else
    let isDataSource := parts.head? == some "data"
    let parts1 := if isDataSource then parts.tail else parts
    match parts1 with
    | [] => .ok none  -- unreachable: two or more segments with at most one shifted away
    | providerName :: parts2 =>
      let resourceName : Option String := parts2.head?
      let parts3 := parts2.tail
      let fullProviderName := gfpn schema providerName
      let fullResourceName := providerName ++ "_" ++ resourceName.getD "undefined"
      match fullProviderName with
      | none => .ok none  -- No provider found with that name
      | some fpn =>
        if fpn = "" then .ok none  -- the empty key is falsy in JavaScript
        else
          match schema.provider_schemas.bind (fun m => lookupKey m fpn) with
          | none => .ok none  -- Could not find provider
          | some provider =>
            match resourceName with
            | none => .error (.typeError "Cannot read properties of undefined (reading endsWith)")
            | some rn =>
              if jsEndsWith rn "Provider" then
                -- This is a provider
                .ok (some ⟨provider.provider, parts3⟩)
              else
                let resources :=
                  if isDataSource then provider.data_source_schemas
                  else provider.resource_schemas
                match lookupKey resources fullResourceName with
                | none => .ok none  -- Could not find resource
                | some resource =>
                  if parts3.length = 0 then .ok none  -- No property specified
                  else .ok (some ⟨some resource, parts3⟩)

/-- The walker state of the descending loops: either the resource schema
they started from (possibly the undefined provider block) or a nested
block type reached along the way. -/
inductive SchemaNode where
  | res (s : Option Schema)
  | block (bt : BlockType)

/-- The block carried by the current walker node; absent exactly when the
JavaScript value in the loop would be falsy (an undefined resource). -/
def SchemaNode.blockOf : SchemaNode → Option Block
  | .res none => none
  | .res (some s) => some s.block
  | .block bt => some bt.block

/-- Faithful embedding of the do-while loop of getBlockTypeAtPath: it
always runs at least once (shifting an empty segment list yields the
undefined key) and descends through block_types entries only. -/
def getBlockTypeAtPathLoop : SchemaNode → List String → Option BlockType
  | node, [] =>
    -- the loop still runs once: shifting the empty list gives the undefined key
    match node.blockOf with
    | none => none  -- falsy currentSchema: no block property with this name
    | some blk => lookupKey blk.block_types "undefined"
  | node, part :: rest =>
    match node.blockOf with
    | none => none  -- falsy currentSchema: no block property with this name
    | some blk =>
      match lookupKey blk.block_types part with
      | none => none  -- Found no block property with this name
      | some bt =>
        match rest with
        | [] => some bt
        | _ :: _ => getBlockTypeAtPathLoop (.block bt) rest

/-- Faithful embedding of getBlockTypeAtPath from handlers.ts. -/
def getBlockTypeAtPath (gfpn : GetFullProviderName) (schema : ProviderSchema)
    (path : String) : Except JsError (Option BlockType) := do
  match ← getResourceAtPath gfpn schema path with
  | none => return none
  | some rp => return getBlockTypeAtPathLoop (.res rp.resource) rp.parts

/-- The Array.isArray test on an attribute type value. -/
def isArrayAT : AttributeType → Bool
  | .arr _ => true
  | _ => false

/-- Faithful embedding of getAttributeTypeAtPath from handlers.ts. Note
that the source dereferences resource.block.attributes before its segment
count check, so an undefined resource raises a TypeError. -/
def getAttributeTypeAtPath (gfpn : GetFullProviderName) (schema : ProviderSchema)
    (path : String) : Except JsError (Option Attribute) := do
  match ← getResourceAtPath gfpn schema path with
  | none => return none
  | some rp =>
    match rp.resource with
    | none => throw (.typeError "Cannot read properties of undefined (reading block)")
    | some resource =>
      let attributes := resource.block.attributes
      if rp.parts.length ≠ 1 then
        -- No property specified or the path is too deep
        return none
      else
        let attributeName := jsStripFirstBrackets (rp.parts.head?.getD "undefined")
        match lookupKey attributes attributeName with
        | none => return none  -- the undefined attribute is returned unchanged
        | some att =>
          if isArrayAT att.type && jsEndsWith path "[]" then
            return some { att with type := jsIndexVal att.type 1 }
          else
            return some att

/-- The guard of the resolveAttribute loop: an array of length two whose
first element is the set or list tag and whose second element is an array
starting with the object tag. -/
def isSetOrListOfObject : AttributeType → Bool
  | .arr items =>
    decide (items.length = 2) &&
    (match items.head? with
     | some (.prim k) => k == "set" || k == "list"
     | _ => false) &&
    (match items.get? 1 with
     | some (.arr inner) =>
       match inner.head? with
       | some (.prim t) => t == "object"
       | _ => false
     | _ => false)
  | _ => false

/-- Faithful embedding of the do-while loop of resolveAttribute: descends
into set or list of object descriptors, consuming one member name per
segment; the member access can yield undefined, which the next iteration
rejects through the guard. A none result is the JavaScript null. -/
def resolveAttributeLoop : AttributeType → List String → Except JsError (Option AttributeType)
  | currentAtt, [] =>
    -- the loop still runs once: shifting the empty list gives the undefined key
    if isSetOrListOfObject currentAtt then
      match jsGetMember (jsIndexVal (jsIndexVal currentAtt 1) 1) "undefined" with
      | .error e => .error e
      | .ok x => .ok (some x)
    else
      -- We could not go deeper
      .ok none
  | currentAtt, part :: rest =>
    if isSetOrListOfObject currentAtt then
      match jsGetMember (jsIndexVal (jsIndexVal currentAtt 1) 1) part with
      | .error e => .error e
      | .ok x =>
        match rest with
        | [] => .ok (some x)
        | _ :: _ => resolveAttributeLoop x rest
    else
      -- We could not go deeper
      .ok none

/-- Faithful embedding of resolveAttribute from handlers.ts. A none
result models the JavaScript null and the some of undefined models undefined. -/
def resolveAttribute (att : Attribute) (parts : List String) :
    Except JsError (Option AttributeType) :=
  if parts.length = 0 then .ok (some att.type)
  else resolveAttributeLoop att.type parts

/-- The union returned by getTypeAtPath: null, a resource schema, a block
type, or an attribute type value (the undefined value included). -/
inductive TypeAtPath where
  | jsNull
  | schema (s : Schema)
  | block (bt : BlockType)
  | attr (t : AttributeType)

/-- Injects the value returned by resolveAttribute into the union
returned by getTypeAtPath (null to null, undefined and types to
attribute values), keeping a raised error. -/
def liftResolved : Except JsError (Option AttributeType) → Except JsError TypeAtPath
  | .error e => .error e
  | .ok none => .ok .jsNull
  | .ok (some t) => .ok (.attr t)

/-- Faithful embedding of the do-while loop of getTypeAtPath: at every
segment a nested block is preferred, an attribute comes second and is
terminal (the remaining segments go to resolveAttribute), anything else
returns null; when the loop exhausts the segments the current node is a
nested block reached by the last descent. -/
def getTypeAtPathLoop : SchemaNode → List String → Except JsError TypeAtPath
  | node, [] =>
    -- the loop still runs once: shifting the empty list gives the undefined key
    match node.blockOf with
    | none => .ok .jsNull  -- falsy currentSchema: neither lookup applies
    | some blk =>
      match lookupKey blk.block_types "undefined" with
      | some bt => .ok (.block bt)  -- Go into blocks if possible
      | none =>
        match lookupKey blk.attributes "undefined" with
        | some att =>
          -- Go into attributes if possible
          liftResolved (resolveAttribute att [])
        | none => .ok .jsNull  -- No block or attribute found but parts left
  | node, part :: rest =>
    match node.blockOf with
    | none => .ok .jsNull  -- falsy currentSchema: neither lookup applies
    | some blk =>
      match lookupKey blk.block_types part with
      | some bt =>
        -- Go into blocks if possible
        match rest with
        | [] => .ok (.block bt)
        | _ :: _ => getTypeAtPathLoop (.block bt) rest
      | none =>
        match lookupKey blk.attributes part with
        | some att =>
          -- Go into attributes if possible
          liftResolved (resolveAttribute att rest)
        | none => .ok .jsNull  -- No block or attribute found but parts left

/-- Faithful embedding of getTypeAtPath from handlers.ts. -/
def getTypeAtPath (gfpn : GetFullProviderName) (schema : ProviderSchema)
    (path : String) : Except JsError TypeAtPath := do
  match ← getResourceAtPath gfpn schema path with
  | none => return .jsNull
  | some rp => getTypeAtPathLoop (.res rp.resource) rp.parts

/-- JavaScript truthiness of a getTypeAtPath result: null, undefined, the
empty string and the number zero are falsy; objects and arrays are always
truthy. -/
def jsFalsyT : TypeAtPath → Bool
  | .jsNull => true
  | .attr .undefined => true
  | .attr (.prim s) => s == ""
  | .attr (.num n) => n == 0
  | _ => false

/-- Faithful embedding of getDesiredType from handlers.ts. A falsy
resolved value gives the dynamic sentinel; strings and arrays are
returned unchanged; a resource schema satisfies the version-membership
test and an object mapping answers it one way or the other, both giving
the dynamic sentinel (for a bare block a diagnostic is logged first); the
version-membership test on a number raises a TypeError. -/
def getDesiredType (gfpn : GetFullProviderName) (scope : Scope) (path : String) :
    Except JsError AttributeType := do
  let attributeType ← getTypeAtPath gfpn scope.providerSchema path
  if jsFalsyT attributeType then
    -- Attribute type is not defined
    return .prim "dynamic"
  else
    match attributeType with
    | .attr (.prim s) => return .prim s  -- Primitive attribute type
    | .attr (.arr l) => return .arr l    -- Complex attribute type
    | .schema _ => return .prim "dynamic"
    | .attr (.obj _) => return .prim "dynamic"
    | .attr (.num _) => throw (.typeError "Cannot use in operator on a number")
    | .block _ => return .prim "dynamic"
    | .jsNull => return .prim "dynamic"      -- unreachable: falsy
    | .attr .undefined => return .prim "dynamic" -- unreachable: falsy

/-! Concrete schemas used by the counterexamples and witnesses. -/

/-- The tags attribute of the example managed resource: a map of strings. -/
def tagsAttr : Attribute := { type := .arr [.prim "map", .prim "string"] }

/-- The example managed resource aws_instance. -/
def instSchema : Schema := { version := 0, block := .mk [("tags", tagsAttr)] [] }

/-- The example data source aws_ami with a string id attribute. -/
def amiSchema : Schema := { version := 0, block := .mk [("id", { type := .prim "string" })] [] }

/-- The provider configuration block of the example provider. -/
def provSchema : Schema :=
  { version := 0, block := .mk [("region", { type := .prim "string" })] [] }

/-- The fully qualified schema key of the example provider. -/
def awsKey : String := "registry.terraform.io/hashicorp/aws"

/-- The example provider entry: a provider block, one managed resource
and one data source. -/
def awsEntry : ProviderSchemaEntry :=
  { provider := some provSchema
    resource_schemas := [("aws_instance", instSchema)]
    data_source_schemas := [("aws_ami", amiSchema)] }

/-- The example provider schema document. -/
def schemaEx : ProviderSchema := { provider_schemas := some [(awsKey, awsEntry)] }

/-- The example scope wrapping the example schema. -/
def scopeEx : Scope := { providerSchema := schemaEx }

/-- A provider-name resolver conforming to the interface: it maps the
short name aws to the schema key of the example provider. -/
def gfpnEx : GetFullProviderName := fun _ name => if name = "aws" then some awsKey else none

/-- A provider entry without a provider block, for the paths that target
the provider configuration of a provider that has none. -/
def nbEntry : ProviderSchemaEntry :=
  { provider := none, resource_schemas := [], data_source_schemas := [] }

/-- A schema document whose only provider lacks a provider block. -/
def schemaNB : ProviderSchema := { provider_schemas := some [("registry.example/nb", nbEntry)] }

/-- A conforming resolver for the provider-block-free schema document. -/
def gfpnNB : GetFullProviderName := fun _ name => if name = "aws" then some "registry.example/nb" else none

/-! Well-formedness of stored schemas, following the data model section of
the spec: an attribute type is a primitive tag, a list/set/map descriptor
over a well-formed element, or an object descriptor whose members are all
well formed; blocks carry well-formed attributes and nested blocks. -/

mutual
/-- A well-formed attribute type per the data model. -/
def wfAT : AttributeType → Bool
  | .prim _ => true
  | .arr [.prim k, e] =>
    if k == "list" || k == "set" || k == "map" then wfAT e
    else if k == "object" then
      match e with
      | .obj members => wfMembers members
      | _ => false
    else false
  | _ => false

/-- Every member type of an object descriptor is well formed. -/
def wfMembers : List (String × AttributeType) → Bool
  | [] => true
  | (_, t) :: rest => wfAT t && wfMembers rest
end

/-- Every attribute of a block mapping has a well-formed declared type. -/
def wfAttrList : List (String × Attribute) → Bool
  | [] => true
  | (_, att) :: rest => wfAT att.type && wfAttrList rest

mutual
/-- A well-formed nested block type. -/
def wfBT : BlockType → Bool
  | .mk (.mk attrs bts) _ => wfAttrList attrs && wfBTList bts

/-- Every nested block of a block mapping is well formed. -/
def wfBTList : List (String × BlockType) → Bool
  | [] => true
  | (_, bt) :: rest => wfBT bt && wfBTList rest
end

/-- A well-formed block. -/
def wfBlock : Block → Bool
  | .mk attrs bts => wfAttrList attrs && wfBTList bts

/-- A well-formed resource schema. -/
def wfSchema (s : Schema) : Bool := wfBlock s.block

/-- A well-formed provider entry. -/
def wfEntry (e : ProviderSchemaEntry) : Bool :=
  (match e.provider with | none => true | some s => wfSchema s) &&
  e.resource_schemas.all (fun p => wfSchema p.2) &&
  e.data_source_schemas.all (fun p => wfSchema p.2)

/-- A well-formed provider schema document, the domain described by the
data model section of the spec. -/
def wfProviderSchema (ps : ProviderSchema) : Bool :=
  match ps.provider_schemas with
  | none => true
  | some m => m.all (fun p => wfEntry p.2)

/-- A well-formed walker node. -/
def wfNode : SchemaNode → Bool
  | .res none => true
  | .res (some s) => wfSchema s
  | .block bt => wfBT bt

/-- The result shapes getTypeAtPath can produce on a well-formed schema:
absent (null or undefined), a nested block type, a primitive tag, or a
complex descriptor array. -/
def shapeOK (r : TypeAtPath) : Prop :=
  r = .jsNull ∨ r = .attr .undefined ∨ (∃ bt, r = .block bt) ∨
  (∃ s, r = .attr (.prim s)) ∨ (∃ l, r = .attr (.arr l))

/-- Whether a resolved value carries a version field, the membership test
of the classifier: true for a resource schema and for an object mapping
with a version member. -/
def hasVersionField : TypeAtPath → Bool
  | .schema _ => true
  | .attr (.obj members) => (lookupKey members "version").isSome
  | _ => false

/-! Supporting lemmas. -/

/-- A key lookup in a mapping all of whose values satisfy f yields a
value satisfying f. -/
theorem lookupKey_of_all {α : Type} (f : α → Bool) :
    ∀ {m : List (String × α)} {k : String} {v : α},
      m.all (fun p => f p.2) = true → lookupKey m k = some v → f v = true := by
  intro m k v hall hl
  induction m with
  | nil => simp [lookupKey] at hl
  | cons p rest ih =>
    rw [List.all_cons, Bool.and_eq_true] at hall
    by_cases h : p.1 == k
    · simp [lookupKey, List.find?_cons, h] at hl
      exact hl ▸ hall.1
    · simp only [lookupKey, List.find?_cons, h] at hl ih
      exact ih hall.2 hl

/-- The member well-formedness predicate is a pointwise all. -/
theorem wfMembers_eq_all :
    ∀ l : List (String × AttributeType), wfMembers l = l.all (fun p => wfAT p.2) := by
  intro l
  induction l with
  | nil => rfl
  | cons p rest ih => rw [wfMembers, List.all_cons, ih]

/-- The attribute-list well-formedness predicate is a pointwise all. -/
theorem wfAttrList_eq_all :
    ∀ l : List (String × Attribute), wfAttrList l = l.all (fun p => wfAT p.2.type) := by
  intro l
  induction l with
  | nil => rfl
  | cons p rest ih => rw [wfAttrList, List.all_cons, ih]

/-- The nested-block-list well-formedness predicate is a pointwise all. -/
theorem wfBTList_eq_all :
    ∀ l : List (String × BlockType), wfBTList l = l.all (fun p => wfBT p.2) := by
  intro l
  induction l with
  | nil => rfl
  | cons p rest ih => rw [wfBTList, List.all_cons, ih]

/-- A nested block type is well formed exactly when its block is. -/
theorem wfBT_eq_wfBlock : ∀ bt : BlockType, wfBT bt = wfBlock bt.block := by
  intro bt
  cases bt with
  | mk b mi => cases b with | mk attrs bts => rfl

/-- Looking a member up in a well-formed object mapping yields a
well-formed type. -/
theorem wfMembers_lookup {members : List (String × AttributeType)} {k : String}
    {t : AttributeType} (hm : wfMembers members = true)
    (hl : lookupKey members k = some t) : wfAT t = true := by
  rw [wfMembers_eq_all] at hm
  exact lookupKey_of_all wfAT hm hl

/-- Looking an attribute up in a well-formed block yields a well-formed
declared type. -/
theorem wfBlock_attr_lookup {b : Block} {k : String} {att : Attribute}
    (hb : wfBlock b = true) (hl : lookupKey b.attributes k = some att) :
    wfAT att.type = true := by
  cases b with
  | mk attrs bts =>
    rw [wfBlock, Bool.and_eq_true, wfAttrList_eq_all] at hb
    exact lookupKey_of_all (fun a => wfAT a.type) hb.1 hl

/-- Looking a nested block up in a well-formed block yields a well-formed
block type. -/
theorem wfBlock_bt_lookup {b : Block} {k : String} {bt : BlockType}
    (hb : wfBlock b = true) (hl : lookupKey b.block_types k = some bt) :
    wfBT bt = true := by
  cases b with
  | mk attrs bts =>
    rw [wfBlock, Bool.and_eq_true, wfBTList_eq_all] at hb
    exact lookupKey_of_all wfBT hb.2 hl

/-- A well-formed attribute type is a primitive tag or an array. -/
theorem wfAT_shape {t : AttributeType} (hw : wfAT t = true) :
    (∃ s, t = .prim s) ∨ (∃ l, t = .arr l) := by
  cases t with
  | prim s => exact Or.inl ⟨s, rfl⟩
  | arr l => exact Or.inr ⟨l, rfl⟩
  | num n => simp [wfAT] at hw
  | obj m => simp [wfAT] at hw
  | undefined => simp [wfAT] at hw

/-- On a collection descriptor with a list, set or map kind tag, the
well-formedness of the pair is the well-formedness of the element. -/
theorem wfAT_pair (k : String) (e : AttributeType)
    (hcond : (k == "list" || k == "set" || k == "map") = true) :
    wfAT (.arr [.prim k, e]) = wfAT e := by
  cases e <;> simp [wfAT, hcond]

/-- A value passing both the resolver guard and well-formedness is a
set or list descriptor over an object descriptor with well-formed
members. -/
theorem guard_decompose {ca : AttributeType} (hg : isSetOrListOfObject ca = true)
    (hw : wfAT ca = true) :
    ∃ k members, ca = .arr [.prim k, .arr [.prim "object", .obj members]] ∧
      wfMembers members = true := by
  cases ca with
  | prim s => simp [isSetOrListOfObject] at hg
  | num n => simp [isSetOrListOfObject] at hg
  | obj m => simp [isSetOrListOfObject] at hg
  | undefined => simp [isSetOrListOfObject] at hg
  | arr items =>
    rcases items with _ | ⟨a, _ | ⟨b, _ | ⟨c, rest⟩⟩⟩
    · simp [isSetOrListOfObject] at hg
    · simp [isSetOrListOfObject] at hg
    · cases a with
      | prim k =>
        cases b with
        | arr inner =>
          rcases inner with _ | ⟨i0, irest⟩
          · simp [isSetOrListOfObject] at hg
          · cases i0 with
            | prim t0 =>
              simp [isSetOrListOfObject] at hg
              have ht0 : t0 = "object" := hg.2
              subst ht0
              have hcond : (k == "list" || k == "set" || k == "map") = true := by
                rcases hg.1 with h | h <;> simp [h]
              rcases irest with _ | ⟨e2, _ | ⟨e3, irest2⟩⟩
              · rw [wfAT_pair _ _ hcond] at hw
                simp [wfAT] at hw
              · rw [wfAT_pair _ _ hcond] at hw
                cases e2 with
                | obj members =>
                  refine ⟨k, members, rfl, ?_⟩
                  simpa [wfAT] using hw
                | prim s => simp [wfAT] at hw
                | num n => simp [wfAT] at hw
                | arr l => simp [wfAT] at hw
                | undefined => simp [wfAT] at hw
              · rw [wfAT_pair _ _ hcond] at hw
                simp [wfAT] at hw
            | num n => simp [isSetOrListOfObject] at hg
            | arr l => simp [isSetOrListOfObject] at hg
            | obj m => simp [isSetOrListOfObject] at hg
            | undefined => simp [isSetOrListOfObject] at hg
        | prim s => simp [isSetOrListOfObject] at hg
        | num n => simp [isSetOrListOfObject] at hg
        | obj mm => simp [isSetOrListOfObject] at hg
        | undefined => simp [isSetOrListOfObject] at hg
      | num n => simp [isSetOrListOfObject] at hg
      | arr l => simp [isSetOrListOfObject] at hg
      | obj m => simp [isSetOrListOfObject] at hg
      | undefined => simp [isSetOrListOfObject] at hg
    · simp [isSetOrListOfObject] at hg

/-- The member access step of the resolve loop on a guarded well-formed
value never raises: it yields the member type or undefined. -/
theorem resolve_access (k part : String) (members : List (String × AttributeType)) :
    jsGetMember
      (jsIndexVal (jsIndexVal (.arr [.prim k, .arr [.prim "object", .obj members]]) 1) 1) part
      = .ok ((lookupKey members part).getD .undefined) := rfl

/-- Values flowing through the resolveAttribute loop over a well-formed
schema stay well formed or become undefined. -/
theorem resolveAttributeLoop_wf :
    ∀ (parts : List String) (ca x : AttributeType),
      (wfAT ca = true ∨ ca = .undefined) →
      resolveAttributeLoop ca parts = .ok (some x) →
      wfAT x = true ∨ x = .undefined := by
  intro parts
  induction parts with
  | nil =>
    intro ca x hca h
    rw [resolveAttributeLoop] at h
    by_cases hg : isSetOrListOfObject ca = true
    · rcases hca with hw | rfl
      · obtain ⟨k, members, rfl, hm⟩ := guard_decompose hg hw
        rw [if_pos hg, resolve_access] at h
        cases hl : lookupKey members "undefined" with
        | some t =>
          rw [hl] at h
          left
          have hx : t = x := by simpa using h
          exact hx ▸ wfMembers_lookup hm hl
        | none =>
          rw [hl] at h
          right
          have hx : AttributeType.undefined = x := by simpa using h
          exact hx.symm
      · simp [isSetOrListOfObject] at hg
    · rw [if_neg hg] at h
      simp at h
  | cons p rest ih =>
    intro ca x hca h
    rw [resolveAttributeLoop] at h
    by_cases hg : isSetOrListOfObject ca = true
    · rcases hca with hw | rfl
      · obtain ⟨k, members, rfl, hm⟩ := guard_decompose hg hw
        rw [if_pos hg, resolve_access] at h
        have hx0 : wfAT ((lookupKey members p).getD .undefined) = true ∨
            (lookupKey members p).getD .undefined = .undefined := by
          cases hl : lookupKey members p with
          | some t => exact Or.inl (by simpa [hl] using wfMembers_lookup hm hl)
          | none => exact Or.inr (by simp [hl])
        cases rest with
        | nil =>
          have hx : (lookupKey members p).getD .undefined = x := by simpa using h
          exact hx ▸ hx0
        | cons q rest2 =>
          simp only [] at h
          exact ih _ x hx0 h
      · simp [isSetOrListOfObject] at hg
    · rw [if_neg hg] at h
      simp at h

/-- resolveAttribute on a well-formed declared type yields a well-formed
type or undefined. -/
theorem resolveAttribute_wf {att : Attribute} {parts : List String} {x : AttributeType}
    (hw : wfAT att.type = true) (h : resolveAttribute att parts = .ok (some x)) :
    wfAT x = true ∨ x = .undefined := by
  unfold resolveAttribute at h
  by_cases hp : parts.length = 0
  · rw [if_pos hp] at h
    left
    have hx : att.type = x := by simpa using h
    exact hx ▸ hw
  · rw [if_neg hp] at h
    exact resolveAttributeLoop_wf parts att.type x (Or.inl hw) h

/-- The block of a well-formed walker node is well formed. -/
theorem wfNode_blockOf {node : SchemaNode} {blk : Block}
    (hn : wfNode node = true) (hb : node.blockOf = some blk) : wfBlock blk = true := by
  cases node with
  | res s =>
    cases s with
    | none => simp [SchemaNode.blockOf] at hb
    | some sch =>
      simp only [SchemaNode.blockOf, Option.some.injEq] at hb
      exact hb ▸ hn
  | block bt =>
    simp only [SchemaNode.blockOf, Option.some.injEq] at hb
    rw [← hb, ← wfBT_eq_wfBlock]
    exact hn

/-- A shape fit result carries no version field. -/
theorem shapeOK_no_version {r : TypeAtPath} (h : shapeOK r) : hasVersionField r = false := by
  rcases h with rfl | rfl | ⟨bt, rfl⟩ | ⟨s, rfl⟩ | ⟨l, rfl⟩ <;> rfl

/-- Lifting an attribute resolution outcome into the walker result gives
null, undefined or an attribute value, and on a well-formed declared type
only the shapes of the data model. -/
theorem resolved_shape {att : Attribute} {tail : List String} {r : TypeAtPath}
    (h : liftResolved (resolveAttribute att tail) = .ok r) :
    (∀ s, r ≠ .schema s) ∧ (wfAT att.type = true → shapeOK r) := by
  cases hra : resolveAttribute att tail with
  | error e => rw [hra] at h; simp [liftResolved] at h
  | ok rr =>
    rw [hra] at h
    cases rr with
    | none =>
      simp only [liftResolved, Except.ok.injEq] at h
      subst h
      exact ⟨fun s hs => TypeAtPath.noConfusion hs, fun _ => Or.inl rfl⟩
    | some t =>
      simp only [liftResolved, Except.ok.injEq] at h
      subst h
      refine ⟨fun s hs => TypeAtPath.noConfusion hs, fun hw => ?_⟩
      rcases resolveAttribute_wf hw hra with ht | rfl
      · rcases wfAT_shape ht with ⟨s, rfl⟩ | ⟨l, rfl⟩
        · exact Or.inr (Or.inr (Or.inr (Or.inl ⟨s, rfl⟩)))
        · exact Or.inr (Or.inr (Or.inr (Or.inr ⟨l, rfl⟩)))
      · exact Or.inr (Or.inl rfl)

/-- The generic walker never returns the resource schema it started from
and, on a well-formed node, returns only absent values, nested block
types, primitive tags or descriptor arrays. -/
theorem getTypeAtPathLoop_shape :
    ∀ (parts : List String) (node : SchemaNode) (r : TypeAtPath),
      getTypeAtPathLoop node parts = .ok r →
      (∀ s, r ≠ .schema s) ∧ (wfNode node = true → shapeOK r) := by
  intro parts
  induction parts with
  | nil =>
    intro node r h
    rw [getTypeAtPathLoop] at h
    split at h
    · rename_i hb
      simp only [Except.ok.injEq] at h
      subst h
      exact ⟨fun s hs => TypeAtPath.noConfusion hs, fun _ => Or.inl rfl⟩
    · rename_i blk hb
      split at h
      · rename_i bt hbt
        simp only [Except.ok.injEq] at h
        subst h
        exact ⟨fun s hs => TypeAtPath.noConfusion hs,
          fun _ => Or.inr (Or.inr (Or.inl ⟨bt, rfl⟩))⟩
      · rename_i hbt
        split at h
        · rename_i att hat
          have hres := resolved_shape h
          exact ⟨hres.1, fun hn =>
            hres.2 (wfBlock_attr_lookup (wfNode_blockOf hn hb) hat)⟩
        · rename_i hat
          simp only [Except.ok.injEq] at h
          subst h
          exact ⟨fun s hs => TypeAtPath.noConfusion hs, fun _ => Or.inl rfl⟩
  | cons p rest ih =>
    intro node r h
    rw [getTypeAtPathLoop] at h
    split at h
    · rename_i hb
      simp only [Except.ok.injEq] at h
      subst h
      exact ⟨fun s hs => TypeAtPath.noConfusion hs, fun _ => Or.inl rfl⟩
    · rename_i blk hb
      split at h
      · rename_i bt hbt
        split at h
        · simp only [Except.ok.injEq] at h
          subst h
          exact ⟨fun s hs => TypeAtPath.noConfusion hs,
            fun _ => Or.inr (Or.inr (Or.inl ⟨bt, rfl⟩))⟩
        · have hres := ih (.block bt) r h
          exact ⟨hres.1, fun hn =>
            hres.2 (wfBlock_bt_lookup (wfNode_blockOf hn hb) hbt)⟩
      · rename_i hbt
        split at h
        · rename_i att hat
          have hres := resolved_shape h
          exact ⟨hres.1, fun hn =>
            hres.2 (wfBlock_attr_lookup (wfNode_blockOf hn hb) hat)⟩
        · rename_i hat
          simp only [Except.ok.injEq] at h
          subst h
          exact ⟨fun s hs => TypeAtPath.noConfusion hs, fun _ => Or.inl rfl⟩

/-- An entry found in a well-formed provider schema document is well
formed. -/
theorem wfPS_entry {schema : ProviderSchema} {fpn : String} {e : ProviderSchemaEntry}
    (hwf : wfProviderSchema schema = true)
    (h : (schema.provider_schemas.bind fun m => lookupKey m fpn) = some e) :
    wfEntry e = true := by
  cases hps : schema.provider_schemas with
  | none => rw [hps] at h; simp at h
  | some m =>
    rw [hps] at h
    simp only [Option.some_bind] at h
    unfold wfProviderSchema at hwf
    rw [hps] at hwf
    exact lookupKey_of_all wfEntry hwf h

/-- The provider block of a well-formed entry is well formed. -/
theorem wfEntry_provider {e : ProviderSchemaEntry} {s : Schema}
    (hwf : wfEntry e = true) (hp : e.provider = some s) : wfSchema s = true := by
  unfold wfEntry at hwf
  rw [hp] at hwf
  simp only [Bool.and_eq_true] at hwf
  exact hwf.1.1

/-- A managed resource of a well-formed entry is well formed. -/
theorem wfEntry_resource {e : ProviderSchemaEntry} {k : String} {s : Schema}
    (hwf : wfEntry e = true) (hl : lookupKey e.resource_schemas k = some s) :
    wfSchema s = true := by
  unfold wfEntry at hwf
  simp only [Bool.and_eq_true] at hwf
  exact lookupKey_of_all wfSchema hwf.1.2 hl

/-- A data source of a well-formed entry is well formed. -/
theorem wfEntry_data {e : ProviderSchemaEntry} {k : String} {s : Schema}
    (hwf : wfEntry e = true) (hl : lookupKey e.data_source_schemas k = some s) :
    wfSchema s = true := by
  unfold wfEntry at hwf
  simp only [Bool.and_eq_true] at hwf
  exact lookupKey_of_all wfSchema hwf.2 hl

/-- The resource entry located by getResourceAtPath in a well-formed
schema document is a well-formed walker start node. -/
theorem getResourceAtPath_wf {gfpn : GetFullProviderName} {schema : ProviderSchema}
    {path : String} {rp : ResourceAtPath}
    (hwf : wfProviderSchema schema = true)
    (h : getResourceAtPath gfpn schema path = .ok (some rp)) :
    wfNode (.res rp.resource) = true := by
  simp only [getResourceAtPath] at h
  split at h
  · simp at h
  · split at h
    · simp at h
    · rename_i providerName parts2
      split at h
      · simp at h
      · rename_i fpn
        split at h
        · simp at h
        · split at h
          · simp at h
          · rename_i provider hentry
            split at h
            · simp at h
            · rename_i rn
              split at h
              · -- provider block branch
                simp only [Except.ok.injEq, Option.some.injEq] at h
                subst h
                have hwe := wfPS_entry hwf hentry
                cases hp : provider.provider with
                | none => simp [wfNode, hp]
                | some s =>
                  simp only [wfNode, hp]
                  exact wfEntry_provider hwe hp
              · split at h
                · simp at h
                · split at h
                  · simp at h
                  · rename_i resource hres hlen
                    simp only [Except.ok.injEq, Option.some.injEq] at h
                    subst h
                    have hwe := wfPS_entry hwf hentry
                    simp only [wfNode]
                    split at hres
                    · exact wfEntry_data hwe hres
                    · exact wfEntry_resource hwe hres

/-- Reduction of the Except bind on a success value. -/
theorem except_bind_ok {α β : Type} (a : α) (f : α → Except JsError β) :
    (Except.ok a >>= f) = f a := rfl

/-- Reduction of the Except bind on an error value. -/
theorem except_bind_error {α β : Type} (e : JsError) (f : α → Except JsError β) :
    ((Except.error e : Except JsError α) >>= f) = Except.error e := rfl

/-- The pure of the Except monad is the success constructor. -/
theorem except_pure {α : Type} (a : α) : (pure a : Except JsError α) = Except.ok a := rfl

/-! The claims. -/

/-- C1: the spec states that every resolution entry point returns
normally, signalling unresolvable input only by an absence value. The
code violates this: on a two-segment path whose first segment is data the
shifted resource name is undefined and the endsWith call raises a
TypeError (which also propagates through getTypeAtPath), and on a
provider-block path over a provider entry without a provider block
getAttributeTypeAtPath dereferences the undefined resource before its
segment-count check and raises. -/
theorem claim1_raises_typeerror :
    getResourceAtPath gfpnEx schemaEx "data.aws" =
      .error (.typeError "Cannot read properties of undefined (reading endsWith)") ∧
    getTypeAtPath gfpnEx schemaEx "data.aws" =
      .error (.typeError "Cannot read properties of undefined (reading endsWith)") ∧
    getAttributeTypeAtPath gfpnNB schemaNB "aws.xProvider" =
      .error (.typeError "Cannot read properties of undefined (reading block)") :=
  ⟨rfl, rfl, rfl⟩

/-- C2 counterexample: with a schema defining the managed resource
aws_instance carrying attribute tags of type map of string and the data
source aws_ami carrying attribute id of type string, and a conforming
provider-name resolver, the exact paths of the claim do not resolve: both
return null, because the code consumes the first two dot segments as the
provider short name and the resource-name remainder, leaving no attribute
segment. -/
theorem claim2_counterexample :
    getTypeAtPath gfpnEx schemaEx "aws_instance.tags" = .ok .jsNull ∧
    getTypeAtPath gfpnEx schemaEx "aws_instance.tags" ≠
      .ok (.attr (.arr [.prim "map", .prim "string"])) ∧
    getTypeAtPath gfpnEx schemaEx "data.aws_ami.id" = .ok .jsNull ∧
    getTypeAtPath gfpnEx schemaEx "data.aws_ami.id" ≠ .ok (.attr (.prim "string")) := by
  have h1 : getTypeAtPath gfpnEx schemaEx "aws_instance.tags" = .ok .jsNull := rfl
  have h2 : getTypeAtPath gfpnEx schemaEx "data.aws_ami.id" = .ok .jsNull := rfl
  refine ⟨h1, ?_, h2, ?_⟩
  · rw [h1]
    intro hc
    exact TypeAtPath.noConfusion (Except.ok.inj hc)
  · rw [h2]
    intro hc
    exact TypeAtPath.noConfusion (Except.ok.inj hc)

/-- C2 amended: the same schema resolves once the path carries the
provider short name as its own first segment: aws.instance.tags yields
the map of string descriptor and data.aws.ami.id yields the string tag
(the code joins the first two consumed segments with an underscore into
aws_instance and aws_ami). -/
theorem claim2_amended :
    getTypeAtPath gfpnEx schemaEx "aws.instance.tags" =
      .ok (.attr (.arr [.prim "map", .prim "string"])) ∧
    getTypeAtPath gfpnEx schemaEx "data.aws.ami.id" = .ok (.attr (.prim "string")) :=
  ⟨rfl, rfl⟩

/-- C4: with no leftover segments resolveAttribute returns the declared
type verbatim; whenever the current value fails the two-element list or
set of object guard the loop returns null; on the example list of object
descriptor the member segment name resolves to its declared string type,
and an unknown member with no further segments resolves to undefined,
distinct from the null failure. -/
theorem claim4_resolve_attribute (att : Attribute) (ca : AttributeType)
    (parts : List String) (hg : isSetOrListOfObject ca = false) :
    resolveAttribute att [] = .ok (some att.type) ∧
    resolveAttributeLoop ca parts = .ok none ∧
    resolveAttribute
      { type := .arr [.prim "list", .arr [.prim "object", .obj [("name", .prim "string")]]] }
      ["name"] = .ok (some (.prim "string")) ∧
    resolveAttribute
      { type := .arr [.prim "list", .arr [.prim "object", .obj [("name", .prim "string")]]] }
      ["bogus"] = .ok (some .undefined) := by
  refine ⟨rfl, ?_, rfl, rfl⟩
  cases parts with
  | nil => rw [resolveAttributeLoop, if_neg (by simp [hg])]
  | cons p rest => rw [resolveAttributeLoop, if_neg (by simp [hg])]

/-- C4 witness: the theorem applied at a primitive current value and a
one-segment tail. -/
theorem claim4_resolve_attribute_witness :
    resolveAttribute { type := AttributeType.prim "string" } [] =
      .ok (some (.prim "string")) ∧
    resolveAttributeLoop (.prim "number") ["x"] = .ok none ∧
    resolveAttribute
      { type := .arr [.prim "list", .arr [.prim "object", .obj [("name", .prim "string")]]] }
      ["name"] = .ok (some (.prim "string")) ∧
    resolveAttribute
      { type := .arr [.prim "list", .arr [.prim "object", .obj [("name", .prim "string")]]] }
      ["bogus"] = .ok (some .undefined) :=
  claim4_resolve_attribute { type := AttributeType.prim "string" } (.prim "number") ["x"] rfl

/-- C5: when a segment matches a nested block, the generic walker
descends into it and never consults the attributes mapping at that
segment: the step result does not depend on the attributes mapping at
all, and equals the descent into the found block. -/
theorem claim5_block_priority (attrs1 attrs2 : List (String × Attribute))
    (bts : List (String × BlockType)) (mi1 mi2 : Option Nat)
    (part : String) (rest : List String) (bt : BlockType)
    (h : lookupKey bts part = some bt) :
    getTypeAtPathLoop (.block (.mk (.mk attrs1 bts) mi1)) (part :: rest) =
      getTypeAtPathLoop (.block (.mk (.mk attrs2 bts) mi2)) (part :: rest) ∧
    getTypeAtPathLoop (.block (.mk (.mk attrs1 bts) mi1)) (part :: rest) =
      (match rest with
       | [] => .ok (.block bt)
       | _ :: _ => getTypeAtPathLoop (.block bt) rest) := by
  have hstep : ∀ (attrs : List (String × Attribute)) (mi : Option Nat),
      getTypeAtPathLoop (.block (.mk (.mk attrs bts) mi)) (part :: rest) =
        (match rest with
         | [] => .ok (.block bt)
         | _ :: _ => getTypeAtPathLoop (.block bt) rest) := by
    intro attrs mi
    cases rest with
    | nil =>
      simp only [getTypeAtPathLoop]
      simp [SchemaNode.blockOf, BlockType.block, Block.block_types, h]
    | cons q rest2 =>
      simp only [getTypeAtPathLoop]
      simp [SchemaNode.blockOf, BlockType.block, Block.block_types, h]
  exact ⟨(hstep attrs1 mi1).trans (hstep attrs2 mi2).symm, hstep attrs1 mi1⟩

/-- C5 witness: the theorem applied at a block whose mapping declares x
both as a nested block and as an attribute; the step descends into the
block and ignores the attribute. -/
theorem claim5_block_priority_witness :
    getTypeAtPathLoop
        (.block (.mk (.mk [("x", { type := AttributeType.prim "string" })]
          [("x", BlockType.mk (.mk [] []) none)]) none)) ["x"] =
      getTypeAtPathLoop (.block (.mk (.mk [] [("x", BlockType.mk (.mk [] []) none)]) none)) ["x"] ∧
    getTypeAtPathLoop
        (.block (.mk (.mk [("x", { type := AttributeType.prim "string" })]
          [("x", BlockType.mk (.mk [] []) none)]) none)) ["x"] =
      .ok (.block (BlockType.mk (.mk [] []) none)) :=
  claim5_block_priority [("x", { type := .prim "string" })] [] [("x", .mk (.mk [] []) none)]
    none none "x" [] (.mk (.mk [] []) none) rfl

/-- C9: a path with fewer than two dot segments makes every entry point
return the absence value and the classifier return the dynamic
sentinel. -/
theorem claim9_short_paths (gfpn : GetFullProviderName) (schema : ProviderSchema)
    (scope : Scope) (path : String)
    (h : (jsSplitDot path).length < 2) :
    getResourceAtPath gfpn schema path = .ok none ∧
    getBlockTypeAtPath gfpn schema path = .ok none ∧
    getAttributeTypeAtPath gfpn schema path = .ok none ∧
    getTypeAtPath gfpn schema path = .ok .jsNull ∧
    getDesiredType gfpn scope path = .ok (.prim "dynamic") := by
  have hres : ∀ (s : ProviderSchema), getResourceAtPath gfpn s path = .ok none := by
    intro s
    simp only [getResourceAtPath]
    rw [if_pos h]
  have ht : ∀ (s : ProviderSchema), getTypeAtPath gfpn s path = .ok .jsNull := by
    intro s
    simp only [getTypeAtPath]
    rw [hres s]
    rfl
  have hb : getBlockTypeAtPath gfpn schema path = .ok none := by
    simp only [getBlockTypeAtPath]
    rw [hres schema]
    rfl
  have ha : getAttributeTypeAtPath gfpn schema path = .ok none := by
    simp only [getAttributeTypeAtPath]
    rw [hres schema]
    rfl
  have hd : getDesiredType gfpn scope path = .ok (.prim "dynamic") := by
    simp only [getDesiredType]
    rw [ht scope.providerSchema]
    rfl
  exact ⟨hres schema, hb, ha, ht schema, hd⟩

/-- C3 counterexample: on the example schema, whose provider entry does
carry a provider block, the two-segment provider path makes
getResourceAtPath return the provider block with no remaining segments,
yet getBlockTypeAtPath returns absent rather than that block, because its
do-while loop unconditionally consumes one segment (looking the undefined
key up in the provider block). -/
theorem claim3_counterexample :
    getResourceAtPath gfpnEx schemaEx "aws.awsProvider" =
      .ok (some ⟨some provSchema, []⟩) ∧
    getBlockTypeAtPath gfpnEx schemaEx "aws.awsProvider" = .ok none :=
  ⟨rfl, rfl⟩

/-- C3 amended: for a two-segment path whose second segment ends with the
Provider suffix and whose first segment (not the data marker) resolves to
a provider entry present in the schema, getResourceAtPath returns that
entry provider block with an empty remaining-segment list; but
getBlockTypeAtPath on the same path returns absent (provided the provider
block, when present, declares no nested block literally named undefined),
because the block descender always consumes one segment. -/
theorem claim3_amended (gfpn : GetFullProviderName) (schema : ProviderSchema)
    (path s1 s2 fpn : String) (entry : ProviderSchemaEntry)
    (hsplit : jsSplitDot path = [s1, s2]) (hdata : s1 ≠ "data")
    (hprov : jsEndsWith s2 "Provider" = true)
    (hgf : gfpn schema s1 = some fpn) (hne : fpn ≠ "")
    (hent : (schema.provider_schemas.bind fun m => lookupKey m fpn) = some entry)
    (hu : ∀ s, entry.provider = some s →
      lookupKey s.block.block_types "undefined" = none) :
    getResourceAtPath gfpn schema path = .ok (some ⟨entry.provider, []⟩) ∧
    getBlockTypeAtPath gfpn schema path = .ok none := by
  have hres : getResourceAtPath gfpn schema path = .ok (some ⟨entry.provider, []⟩) := by
    simp [getResourceAtPath, hsplit, hdata, hgf, hne, hent, hprov]
  refine ⟨hres, ?_⟩
  simp only [getBlockTypeAtPath]
  rw [hres]
  show Except.ok (getBlockTypeAtPathLoop (.res entry.provider) []) = .ok none
  rw [getBlockTypeAtPathLoop]
  cases hp : entry.provider with
  | none => rfl
  | some s =>
    simp only [SchemaNode.blockOf]
    rw [hu s hp]

/-- C3 witness: the amended theorem applied at the example schema and the
path aws.awsProvider. -/
theorem claim3_amended_witness :
    getResourceAtPath gfpnEx schemaEx "aws.awsProvider" =
      .ok (some ⟨awsEntry.provider, []⟩) ∧
    getBlockTypeAtPath gfpnEx schemaEx "aws.awsProvider" = .ok none :=
  claim3_amended gfpnEx schemaEx "aws.awsProvider" "aws" "awsProvider" awsKey awsEntry
    (by decide) (by decide) (by decide) rfl (by decide) rfl
    (fun s hs => by
      have hsp : provSchema = s := Option.some.inj hs
      rw [← hsp]
      rfl)

/-- C6: when the single remaining segment carries the bracket marker and
names an attribute whose declared type is a two-element descriptor,
getAttributeTypeAtPath returns a synthetic attribute whose type is the
descriptor element at index one, which equals manually unwrapping the
descriptor second component; when the marker is present but the declared
type is not an array the attribute is returned as declared. -/
theorem claim6_bracket_projection (gfpn : GetFullProviderName) (schema : ProviderSchema)
    (path seg name : String) (res : Schema) (att : Attribute)
    (hres : getResourceAtPath gfpn schema path = .ok (some ⟨some res, [seg]⟩))
    (hname : jsStripFirstBrackets seg = name)
    (hatt : lookupKey res.block.attributes name = some att)
    (hends : jsEndsWith path "[]" = true) :
    (∀ k e, att.type = .arr [k, e] →
      getAttributeTypeAtPath gfpn schema path = .ok (some { att with type := e })) ∧
    (isArrayAT att.type = false →
      getAttributeTypeAtPath gfpn schema path = .ok (some att)) ∧
    (∀ k e, att.type = .arr [k, e] → jsIndexVal att.type 1 = e) := by
  have hbase : getAttributeTypeAtPath gfpn schema path =
      (if isArrayAT att.type then .ok (some { att with type := jsIndexVal att.type 1 })
       else .ok (some att)) := by
    simp [getAttributeTypeAtPath, hres, except_bind_ok, except_pure, hname, hatt, hends]
  refine ⟨?_, ?_, ?_⟩
  · intro k e hat
    rw [hbase, hat]
    simp [isArrayAT, jsIndexVal]
  · intro hna
    rw [hbase, if_neg (by simp [hna])]
  · intro k e hat
    rw [hat]
    rfl

/-- C6 witness: the theorem applied at the example schema and the path
aws.instance.tags with the bracket marker: the map of string descriptor
projects to its element component string. -/
theorem claim6_bracket_projection_witness :
    getAttributeTypeAtPath gfpnEx schemaEx "aws.instance.tags[]" =
      .ok (some { tagsAttr with type := .prim "string" }) :=
  (claim6_bracket_projection gfpnEx schemaEx "aws.instance.tags[]" "tags[]" "tags"
      instSchema tagsAttr rfl rfl rfl (by decide)).1 (.prim "map") (.prim "string") rfl

/-- C8: the segment-count contract holds whenever the located resource
entry is defined: with zero, or two or more, remaining segments
getAttributeTypeAtPath returns absent; but when the provider entry lacks
a provider block the located resource is undefined and the code raises a
TypeError before the count check, against the claim. -/
theorem claim8_segment_contract (gfpn : GetFullProviderName) (schema : ProviderSchema)
    (path : String) (res : Schema) (parts : List String)
    (hres : getResourceAtPath gfpn schema path = .ok (some ⟨some res, parts⟩))
    (hlen : parts.length ≠ 1) :
    getAttributeTypeAtPath gfpn schema path = .ok none ∧
    getAttributeTypeAtPath gfpnNB schemaNB "aws.xProvider.a.b" =
      .error (.typeError "Cannot read properties of undefined (reading block)") := by
  refine ⟨?_, rfl⟩
  simp [getAttributeTypeAtPath, hres, except_bind_ok, except_pure, hlen]

/-- C8 witness: the theorem applied at a path leaving two remaining
segments over a defined resource. -/
theorem claim8_segment_contract_witness :
    getAttributeTypeAtPath gfpnEx schemaEx "aws.instance.tags.deeper" = .ok none ∧
    getAttributeTypeAtPath gfpnNB schemaNB "aws.xProvider.a.b" =
      .error (.typeError "Cannot read properties of undefined (reading block)") :=
  claim8_segment_contract gfpnEx schemaEx "aws.instance.tags.deeper" instSchema
    ["tags", "deeper"] rfl (by decide)

/-- C7 counterexample: getDesiredType does not return a value for every
scope and path: on the two-segment data path over a resolvable provider
the underlying getTypeAtPath raises a TypeError that propagates out of
the classifier instead of any sentinel. -/
theorem claim7_counterexample :
    getDesiredType gfpnEx scopeEx "data.aws" =
      .error (.typeError "Cannot read properties of undefined (reading endsWith)") := rfl

/-- C7 amended: whenever getTypeAtPath returns normally, the classifier
returns a value: the dynamic sentinel when the result is absent (null or
undefined), a resource schema, a bare block, a bare object mapping, the
empty string tag or the zero number; exactly the resolved value when the
result is a nonempty primitive tag or a descriptor array. (It raises
only when getTypeAtPath raises, or returns a nonzero number, a shape
only malformed schemas can produce.) -/
theorem claim7_amended (gfpn : GetFullProviderName) (scope : Scope) (path : String)
    (r : TypeAtPath) (h : getTypeAtPath gfpn scope.providerSchema path = .ok r) :
    ((r = .jsNull ∨ r = .attr .undefined ∨ (∃ s, r = .schema s) ∨ (∃ bt, r = .block bt) ∨
      (∃ m, r = .attr (.obj m)) ∨ r = .attr (.prim "") ∨ r = .attr (.num 0)) →
      getDesiredType gfpn scope path = .ok (.prim "dynamic")) ∧
    (∀ s, r = .attr (.prim s) → s ≠ "" →
      getDesiredType gfpn scope path = .ok (.prim s)) ∧
    (∀ l, r = .attr (.arr l) → getDesiredType gfpn scope path = .ok (.arr l)) := by
  refine ⟨?_, ?_, ?_⟩
  · intro hcase
    rcases hcase with rfl | rfl | ⟨s, rfl⟩ | ⟨bt, rfl⟩ | ⟨m, rfl⟩ | rfl | rfl <;>
      simp [getDesiredType, h, except_bind_ok, except_pure, jsFalsyT]
  · intro s hr hs
    subst hr
    simp [getDesiredType, h, except_bind_ok, except_pure, jsFalsyT, hs]
  · intro l hr
    subst hr
    simp [getDesiredType, h, except_bind_ok, except_pure, jsFalsyT]

/-- C7 witness: the amended theorem applied at the example scope and the
path data.aws.ami.id, whose resolved type is the string tag. -/
theorem claim7_amended_witness :
    getDesiredType gfpnEx scopeEx "data.aws.ami.id" = .ok (.prim "string") :=
  (claim7_amended gfpnEx scopeEx "data.aws.ami.id" (.attr (.prim "string")) rfl).2.1
    "string" rfl (by decide)

/-- C10: getTypeAtPath never returns the resource schema itself, and on a
well-formed schema document every successful result is absent (null or
undefined), a nested block type, a primitive tag or a descriptor array;
consequently no successful result carries a version field, so the
version-membership branch of the classifier can never see one. -/
theorem claim10_result_shapes (gfpn : GetFullProviderName) (schema : ProviderSchema)
    (path : String) (r : TypeAtPath)
    (h : getTypeAtPath gfpn schema path = .ok r) :
    (∀ s, r ≠ .schema s) ∧
    (wfProviderSchema schema = true → shapeOK r) ∧
    (wfProviderSchema schema = true → hasVersionField r = false) := by
  have hmain : (∀ s, r ≠ .schema s) ∧ (wfProviderSchema schema = true → shapeOK r) := by
    cases hres : getResourceAtPath gfpn schema path with
    | error e =>
      simp only [getTypeAtPath] at h
      rw [hres, except_bind_error] at h
      exact Except.noConfusion h
    | ok v =>
      simp only [getTypeAtPath] at h
      rw [hres, except_bind_ok] at h
      cases v with
      | none =>
        have h2 : Except.ok TypeAtPath.jsNull = Except.ok r := h
        have hr : TypeAtPath.jsNull = r := Except.ok.inj h2
        subst hr
        exact ⟨fun s hs => TypeAtPath.noConfusion hs, fun _ => Or.inl rfl⟩
      | some rp =>
        have h2 : getTypeAtPathLoop (.res rp.resource) rp.parts = Except.ok r := h
        have hshape := getTypeAtPathLoop_shape rp.parts (.res rp.resource) r h2
        exact ⟨hshape.1, fun hwf => hshape.2 (getResourceAtPath_wf hwf hres)⟩
  exact ⟨hmain.1, hmain.2, fun hwf => shapeOK_no_version (hmain.2 hwf)⟩

/-- C10 witness: the theorem applied at the example schema and the path
aws.instance.tags, whose resolved value is the map of string descriptor
array. -/
theorem claim10_result_shapes_witness :
    TypeAtPath.attr (.arr [.prim "map", .prim "string"]) ≠ .schema instSchema ∧
    shapeOK (.attr (.arr [.prim "map", .prim "string"])) ∧
    hasVersionField (.attr (.arr [.prim "map", .prim "string"])) = false := by
  have hmain := claim10_result_shapes gfpnEx schemaEx "aws.instance.tags"
    (.attr (.arr [.prim "map", .prim "string"])) rfl
  exact ⟨hmain.1 instSchema, hmain.2.1 rfl, hmain.2.2 rfl⟩

/-- C9 witness: the theorem applied at the single-segment path abc. -/
theorem claim9_short_paths_witness :
    getResourceAtPath gfpnEx schemaEx "abc" = .ok none ∧
    getBlockTypeAtPath gfpnEx schemaEx "abc" = .ok none ∧
    getAttributeTypeAtPath gfpnEx schemaEx "abc" = .ok none ∧
    getTypeAtPath gfpnEx schemaEx "abc" = .ok .jsNull ∧
    getDesiredType gfpnEx scopeEx "abc" = .ok (.prim "dynamic") :=
  claim9_short_paths gfpnEx schemaEx scopeEx "abc" (by decide)

end CdktfSchema
